import Mathlib

/-!
Shallow embedding of the core of `src/src/game.cpp` (namespace `retro_dungeon`):
the grid map, the dungeon generator, the entity model and the turn/combat
engine, together with proofs of the specification's claims about them.

C++ `int` is modelled as `Int` (no claim concerns overflow).  The header
`retro_dungeon/game.hpp` is not part of the sources; the handful of inline
members and constants it declares (`takeDamage`, `isAlive`, `MAP_WIDTH`,
`MAP_HEIGHT`, `MAX_MESSAGES`, `INVALID_POSITION`, the `Item` record) are
modelled from the specification and carry a doc comment saying so.
-/

set_option maxRecDepth 100000

namespace RetroDungeon

/-- C++ integer division truncates toward zero (`Int.tdiv`).  Every use in
this file has nonnegative operands, where truncation, flooring and Euclidean
division all agree. -/
def cppDiv (a b : Int) : Int := Int.tdiv a b

/-- `Position`: `std::pair<int,int>` of grid coordinates. -/
abbrev Position := Int × Int

inductive Direction
  | North | South | East | West
deriving DecidableEq, Repr

inductive TileType
  | Floor | Wall | Door | StairsUp | StairsDown | Trap
deriving DecidableEq, Repr

structure Tile where
  type : TileType
  symbol : Char
  walkable : Bool
deriving DecidableEq, Repr

inductive EnemyType
  | Goblin | Orc | Skeleton | Zombie | Dragon | Rat | Spider
deriving DecidableEq, Repr

inductive GameState
  | MainMenu | Playing | GameOver
deriving DecidableEq, Repr

/-- Modelled from the spec (§3): the `Item` record lives in the missing
header; its fields are `{name, type, symbol, primary value, secondary value,
value/cost}`.  Only the `Potion` archetype is ever constructed in
`game.cpp` (`spawnItems`). -/
inductive ItemType
  | Potion
deriving DecidableEq, Repr

structure Item where
  name : String
  itemType : ItemType
  symbol : Char
  value : Int
  secondary : Int
  cost : Int
deriving DecidableEq, Repr

/-- `Enemy`: entity fields shared with `Player` plus type/symbol/rewards. -/
structure Enemy where
  id : Int
  type : EnemyType
  pos : Position
  name : String
  symbol : Char
  health : Int
  maxHealth : Int
  attackPower : Int
  defense : Int
  expReward : Int
  goldReward : Int
deriving DecidableEq, Repr

/-- The constructor `Enemy::Enemy` (game.cpp:9–34): `expReward = 10` and
`goldReward = 5` from the member-initializer list, the remaining stats from
the `switch` on the archetype.  Note the `Dragon` case sets `health = 0`
while `maxHealth = 200`. -/
def Enemy.create (i : Int) (t : EnemyType) (p : Position) : Enemy :=
  match t with
  | EnemyType.Goblin =>
      ⟨i, t, p, "Goblin", 'g', 20, 20, 5, 2, 10, 5⟩
  | EnemyType.Orc =>
      ⟨i, t, p, "Orc", 'o', 40, 40, 10, 5, 10, 5⟩
  | EnemyType.Skeleton =>
      ⟨i, t, p, "Skeleton", 's', 25, 25, 8, 3, 10, 5⟩
  | EnemyType.Zombie =>
      ⟨i, t, p, "Zombie", 'z', 35, 35, 6, 8, 10, 5⟩
  | EnemyType.Dragon =>
      ⟨i, t, p, "Dragon", 'D', 0, 200, 30, 20, 10, 5⟩
  | EnemyType.Rat =>
      ⟨i, t, p, "Rat", 'r', 5, 5, 2, 0, 10, 5⟩
  | EnemyType.Spider =>
      ⟨i, t, p, "Spider", 'x', 15, 15, 6, 1, 10, 5⟩

/-- Modelled from the spec: `Entity::takeDamage` is declared in the missing
header.  Combat in §4.3 requires health to decrease by exactly the damage
argument (callers compute any defense adjustment themselves, cf.
game.cpp:258). -/
def Enemy.takeDamage (e : Enemy) (dmg : Int) : Enemy :=
  { e with health := e.health - dmg }

/-- Modelled from the spec: `Entity::isAlive` from the missing header;
entities are dead exactly when health reaches ≤ 0 (§3 lifecycle, §4.3). -/
def Enemy.isAlive (e : Enemy) : Bool := e.health > 0

structure Player where
  id : Int
  name : String
  pos : Position
  health : Int
  maxHealth : Int
  attackPower : Int
  defense : Int
  level : Int
  experience : Int
  gold : Int
  dungeonLevel : Int
  inventory : List Item
deriving DecidableEq, Repr

/-- The constructor `Player::Player` (game.cpp:36–38). -/
def Player.create (i : Int) (n : String) (p : Position) : Player :=
  ⟨i, n, p, 100, 100, 5, 2, 1, 0, 0, 1, []⟩

/-- `Player::heal` (game.cpp:40–42). -/
def Player.heal (pl : Player) (amt : Int) : Player :=
  { pl with health := min (pl.health + amt) pl.maxHealth }

/-- Modelled from the spec: `Entity::takeDamage` for the player (missing
header), as for `Enemy.takeDamage`. -/
def Player.takeDamage (pl : Player) (dmg : Int) : Player :=
  { pl with health := pl.health - dmg }

/-- Modelled from the spec: `Entity::isAlive` for the player (missing
header). -/
def Player.isAlive (pl : Player) : Bool := pl.health > 0

/-- `Player::addItem` (game.cpp:44–50). -/
def Player.addItem (pl : Player) (item : Item) : Player × Bool :=
  if pl.inventory.length ≤ 20 then
    ({ pl with inventory := pl.inventory ++ [item] }, true)
  else (pl, false)

/-- `Player::move` (game.cpp:52–62): unconditional coordinate update — note
East moves by +2 while West moves by −1.  The C++ function returns `true`
unconditionally and its caller ignores the result, so the model drops it. -/
def Player.move (pl : Player) (dir : Direction) : Player :=
  let (x, y) := pl.pos
  match dir with
  | Direction.North => { pl with pos := (x, y - 1) }
  | Direction.South => { pl with pos := (x, y + 1) }
  | Direction.East => { pl with pos := (x + 2, y) }
  | Direction.West => { pl with pos := (x - 1, y) }

example : cppDiv 9 4 = 2 := by decide
example : (Enemy.create 1 EnemyType.Dragon (0, 0)).health = 0 := by decide
example : ((Player.create 1 "a" (0, 0)).move Direction.East).pos = (2, 0) := by decide

/-- Modelled from the spec (§3): the invalid-position sentinel from the
missing header.  No claim depends on its concrete value; it only initializes
`stairsDown` before generation records a real position. -/
def INVALID_POSITION : Position := (-1, -1)

/-- The canonical `{symbol, walkable}` pair written by `Map::setTile`'s
`switch` (game.cpp:87–94). -/
def canonicalTile : TileType → Tile
  | TileType.Floor => ⟨TileType.Floor, '.', true⟩
  | TileType.Wall => ⟨TileType.Wall, '#', false⟩
  | TileType.Door => ⟨TileType.Door, '+', true⟩
  | TileType.StairsUp => ⟨TileType.StairsUp, '<', true⟩
  | TileType.StairsDown => ⟨TileType.StairsDown, '>', true⟩
  | TileType.Trap => ⟨TileType.Trap, '^', true⟩

/-- The default tile every cell is initialized to (`Map::Map`,
game.cpp:64–66): a wall, `'#'`, not walkable. -/
def wallTile : Tile := ⟨TileType.Wall, '#', false⟩

/-- `Map`: the `m_tiles` row-major `vector<vector<Tile>>` is modelled as a
total function from coordinates to tiles.  `setTile` only ever writes inside
the valid rectangle, so coordinates outside the allocated grid stay at the
default `wallTile`; the C++ `getTile` on such coordinates would be an
out-of-bounds vector access (undefined behaviour), which the model totalizes
to the default tile. -/
structure Map where
  width : Int
  height : Int
  tiles : Int → Int → Tile
  stairsDown : Position

/-- The constructor `Map::Map(w, h)` (game.cpp:64–66). -/
def Map.create (w h : Int) : Map :=
  ⟨w, h, fun _ _ => wallTile, INVALID_POSITION⟩

/-- `Map::getTile` (game.cpp:68–74). -/
def Map.getTile (m : Map) (x y : Int) : Tile := m.tiles x y

/-- `Map::isValidPosition` (game.cpp:76–78). -/
def Map.isValidPosition (m : Map) (x y : Int) : Bool :=
  0 ≤ x && x < m.width && 0 ≤ y && y < m.height

/-- `Map::isWalkable` (game.cpp:80–83). -/
def Map.isWalkable (m : Map) (x y : Int) : Bool :=
  if m.isValidPosition x y then (m.tiles x y).walkable else false

/-- `Map::setTile` (game.cpp:85–95): no-op outside the grid, otherwise
overwrite with the canonical tile for the type. -/
def Map.setTile (m : Map) (x y : Int) (t : TileType) : Map :=
  if m.isValidPosition x y then
    { m with tiles := fun a b => if a = x ∧ b = y then canonicalTile t else m.tiles a b }
  else m

/-- `Map::setStairsDown` (declared in the header, a plain setter used at
game.cpp:130). -/
def Map.setStairsDown (m : Map) (p : Position) : Map :=
  { m with stairsDown := p }

/-- `Map::clear` (game.cpp:97–104). -/
def Map.clear (m : Map) : Map :=
  { m with tiles := fun _ _ => wallTile, stairsDown := INVALID_POSITION }

/-- Model of the seeded pseudo-random source: a `std::mt19937` owned by the
generator and threaded through every `std::uniform_int_distribution` draw.
The C++ standard specifies the engine but leaves the distribution's mapping
of raw engine output to `[a,b]` implementation-defined; the faithful common
ground, which every claim quantifying over "every seed" is read against, is
a deterministic stream of raw draws reduced into the requested range.  `g n`
is the `n`-th raw draw. -/
abbrev Rng := Nat → Nat

/-- One raw draw: the head of the stream, and the shifted stream. -/
def Rng.next (g : Rng) : Nat × Rng := (g 0, fun n => g (n + 1))

/-- `std::uniform_int_distribution<int>(a, b)` applied to the generator:
the result always lies in `[a, b]` (for `a ≤ b`; `a > b` is undefined
behaviour in C++ and never occurs in the uses below). -/
def uniformInt (a b : Int) (g : Rng) : Int × Rng :=
  let (v, g') := Rng.next g
  (a + ((v % (b - a + 1).toNat : Nat) : Int), g')

/-- The integer interval `[lo, hi)` as a list, modelling a C++
`for (int i = lo; i < hi; ++i)` loop's iteration space. -/
def intRange (lo hi : Int) : List Int :=
  (List.range (hi - lo).toNat).map (fun (n : Nat) => lo + (n : Int))

/-- `DungeonGenerator::generate` (game.cpp:111–133): carve the central
50%×50% room (each loop also clipped to stay inside the outer border), then
draw a uniformly random room cell, mark it `StairsDown` and record it. -/
def DungeonGenerator.generate (width height : Int) (g : Rng) : Map × Rng :=
  let map := Map.create width height
  let roomX := cppDiv width 4
  let roomY := cppDiv height 4
  let roomW := cppDiv width 2
  let roomH := cppDiv height 2
  let map :=
    (intRange roomY (min (roomY + roomH) (height - 1))).foldl
      (fun m y =>
        (intRange roomX (min (roomX + roomW) (width - 1))).foldl
          (fun m x => m.setTile x y TileType.Floor) m)
      map
  let (sx, g) := uniformInt roomX (roomX + roomW - 1) g
  let (sy, g) := uniformInt roomY (roomY + roomH - 1) g
  let map := map.setTile sx sy TileType.StairsDown
  let map := map.setStairsDown (sx, sy)
  (map, g)

example :
    ((DungeonGenerator.generate 8 8 (fun _ => 0)).1.getTile 2 2).type
      = TileType.StairsDown := by decide
example :
    ((DungeonGenerator.generate 8 8 (fun _ => 0)).1.getTile 3 2).type
      = TileType.Floor := by decide
example :
    ((DungeonGenerator.generate 8 8 (fun _ => 0)).1.getTile 0 0).type
      = TileType.Wall := by decide
example :
    (DungeonGenerator.generate 8 8 (fun _ => 1)).1.stairsDown = (3, 3) := by decide

/-- Modelled from the spec: the fixed map width from the missing header.
The spec only says levels use "fixed dimensions"; the value is chosen as a
standard 80×24 terminal grid.  Theorems phrase every consequence through
`MAP_WIDTH`/`MAP_HEIGHT` symbolically, so nothing below depends on the
choice beyond both being ≥ 8. -/
def MAP_WIDTH : Int := 80

/-- Modelled from the spec: the fixed map height from the missing header
(see `MAP_WIDTH`). -/
def MAP_HEIGHT : Int := 24

/-- Modelled from the spec: the message-log capacity from the missing
header; §3 fixes it at 5 ("capacity 5, oldest evicted first"). -/
def MAX_MESSAGES : Nat := 5

/-- The game session (`class Game` state): the `DungeonGenerator` member is
represented by the random stream it owns (`initialize`, game.cpp:137–140,
seeds it; determinism given that stream is what matters here). -/
structure Game where
  state : GameState
  player : Option Player
  map : Option Map
  enemies : List Enemy
  floorItems : List Item
  messages : List String
  nextEntityId : Int
  rng : Rng

/-- `Game::Game` (game.cpp:135) followed by `Game::initialize`
(game.cpp:137–140) installing a generator with stream `g`. -/
def Game.init (g : Rng) : Game :=
  ⟨GameState.MainMenu, none, none, [], [], [], 1, g⟩

/-- `Game::shutdown` (game.cpp:146–151). -/
def Game.shutdown (gm : Game) : Game :=
  { gm with player := none, map := none, enemies := [], messages := [] }

/-- The list-level body of `Game::addMessage` (game.cpp:224–229):
`push_back`, then erase the front element when the size exceeds
`MAX_MESSAGES`. -/
def addMessageList (log : List String) (msg : String) : List String :=
  let log' := log ++ [msg]
  if log'.length > MAX_MESSAGES then log'.tail else log'

/-- `Game::addMessage` (game.cpp:224–229). -/
def Game.addMessage (gm : Game) (msg : String) : Game :=
  { gm with messages := addMessageList gm.messages msg }

/-- One iteration of the `Game::spawnEnemies` loop (game.cpp:290–295): draw
x from `[1, MAP_WIDTH−2]`, y from `[1, MAP_HEIGHT−2]`, then an index into
the local archetype array `{Goblin, Orc, Skeleton, Zombie, Rat, Spider,
Dragon}` from `[0, 6]` (note `Dragon` sits at index 6, unlike the enum
order). -/
def spawnOneEnemy (nextId : Int) (g : Rng) : Enemy × Rng :=
  let (x, g) := uniformInt 1 (MAP_WIDTH - 2) g
  let (y, g) := uniformInt 1 (MAP_HEIGHT - 2) g
  let (t, g) := uniformInt 0 6 g
  let types : List EnemyType :=
    [EnemyType.Goblin, EnemyType.Orc, EnemyType.Skeleton, EnemyType.Zombie,
     EnemyType.Rat, EnemyType.Spider, EnemyType.Dragon]
  (Enemy.create nextId (types.getD t.toNat EnemyType.Goblin) (x, y), g)

/-- `Game::spawnEnemies` (game.cpp:285–296): append `count` freshly drawn
enemies (id counter incremented per spawn). -/
def Game.spawnEnemies (gm : Game) (count : Int) : Game :=
  (intRange 0 count).foldl
    (fun gm _ =>
      let (e, g) := spawnOneEnemy gm.nextEntityId gm.rng
      { gm with enemies := gm.enemies ++ [e], nextEntityId := gm.nextEntityId + 1,
                rng := g })
    gm

/-- `Game::spawnItems` (game.cpp:298–307): each iteration draws a position
(which the source then never uses — the item has no position field filled)
and appends a fixed Health Potion record. -/
def Game.spawnItems (gm : Game) (count : Int) : Game :=
  (intRange 0 count).foldl
    (fun gm _ =>
      let (_, g) := uniformInt 1 (MAP_WIDTH - 2) gm.rng
      let (_, g) := uniformInt 1 (MAP_HEIGHT - 2) g
      { gm with
          floorItems := gm.floorItems ++ [⟨"Health Potion", ItemType.Potion, '!', 20, 0, 25⟩],
          rng := g })
    gm

/-- `Game::newGame` (game.cpp:153–164): create the player (initially at
`{5,5}`), generate the level, reposition the player at the fixed spawn
offset, spawn 5 enemies and 3 items, set state to Playing, clear the log
and add the welcome message. -/
def Game.newGame (gm : Game) (playerName : String) : Game :=
  let pl := Player.create gm.nextEntityId playerName (5, 5)
  let gm := { gm with nextEntityId := gm.nextEntityId + 1 }
  let (m, g) := DungeonGenerator.generate MAP_WIDTH MAP_HEIGHT gm.rng
  let pl := { pl with pos := (cppDiv MAP_WIDTH 4 + 1, cppDiv MAP_HEIGHT 4 + 1) }
  let gm := { gm with player := some pl, map := some m, rng := g }
  let gm := gm.spawnEnemies 5
  let gm := gm.spawnItems 3
  let gm := { gm with state := GameState.Playing, messages := [] }
  gm.addMessage ("Welcome to the dungeon, " ++ playerName ++ "!")

/-- `Game::getEnemyAt` (game.cpp:318–323): the first enemy in the live list
at that position that is alive. -/
def Game.getEnemyAt (gm : Game) (p : Position) : Option Enemy :=
  gm.enemies.find? (fun e => decide (e.pos = p) && e.isAlive)

/-- `Game::handleCombat` (game.cpp:252–271), written over the player and
the attacked enemy (in the source the enemy is a reference into
`m_enemies`; `Game.handleMovement` writes the returned records back).
Returns the game (messages/state updated), the player and the enemy. -/
def Game.handleCombat (gm : Game) (pl : Player) (e : Enemy) : Game × Player × Enemy :=
  let damage := pl.attackPower
  let e := e.takeDamage damage
  let gm := gm.addMessage ("You hit " ++ e.name ++ " for " ++ toString damage ++ " damage!")
  if e.isAlive then
    let enemyDmg := max 1 (e.attackPower - pl.defense)
    let pl := pl.takeDamage enemyDmg
    let gm := gm.addMessage (e.name ++ " hits you for " ++ toString enemyDmg ++ " damage!")
    if pl.isAlive then (gm, pl, e)
    else
      let gm := { gm with state := GameState.GameOver }
      (gm.addMessage "You have been slain!", pl, e)
  else
    let pl := { pl with experience := pl.experience + e.expReward,
                        gold := pl.gold + e.goldReward }
    (gm.addMessage ("You defeated " ++ e.name ++ "! +" ++ toString e.expReward ++ " XP"),
     pl, e)

/-- `Game::nextLevel` (game.cpp:273–283): bump `dungeonLevel`, regenerate
the map at the fixed dimensions, reposition the player at the fixed spawn
offset, clear and respawn `5 + dungeonLevel` enemies plus 3 items, and log
the descent. -/
def Game.nextLevel (gm : Game) : Game :=
  match gm.player with
  | none => gm
  | some pl =>
    let pl := { pl with dungeonLevel := pl.dungeonLevel + 1 }
    let (m, g) := DungeonGenerator.generate MAP_WIDTH MAP_HEIGHT gm.rng
    let pl := { pl with pos := (cppDiv MAP_WIDTH 4 + 1, cppDiv MAP_HEIGHT 4 + 1) }
    let gm := { gm with player := some pl, map := some m, rng := g, enemies := [] }
    let gm := gm.spawnEnemies (5 + pl.dungeonLevel)
    let gm := gm.spawnItems 3
    gm.addMessage ("You descend to dungeon level " ++ toString pl.dungeonLevel)

/-- `Game::handleMovement` (game.cpp:231–250): silent no-op without a
player and a map; otherwise move unconditionally, fight the first alive
enemy on the destination (writing the combat results back into the player
and the enemy's slot in the list), then descend if the destination tile is
`StairsDown`.  The source's walkability check (game.cpp:237–240) has an
empty body and is dropped.  (`getTile` there on an out-of-bounds
destination would be undefined behaviour in C++; the model reads the
default wall tile.) -/
def Game.handleMovement (gm : Game) (dir : Direction) : Game :=
  match gm.player, gm.map with
  | some pl, some m =>
    let pl := pl.move dir
    let gm := { gm with player := some pl }
    let gm :=
      match gm.enemies.findIdx? (fun e => decide (e.pos = pl.pos) && e.isAlive) with
      | some i =>
        match gm.enemies.get? i with
        | some e =>
          let (gm, pl', e') := gm.handleCombat pl e
          { gm with player := some pl', enemies := gm.enemies.set i e' }
        | none => gm
      | none => gm
    if (m.getTile pl.pos.1 pl.pos.2).type = TileType.StairsDown then
      gm.nextLevel
    else gm
  | _, _ => gm

/-- `Game::update` (game.cpp:209–211). -/
def Game.update (gm : Game) : Game :=
  { gm with enemies :=
      match gm.enemies.findIdx? (fun e => !e.isAlive) with
      | some i => gm.enemies.eraseIdx i
      | none => gm.enemies }

/-! ### Save/load text format

`Game::saveGame` (game.cpp:166–177) streams the player record into a text
file; `Game::loadGame` (game.cpp:179–204) reads it back with `getline` for
the name and `operator>>` for the eight integers.  The file is modelled as
the character sequence written/read; opening the file (the only signalled
failure) is I/O glue outside the model. -/

/-- The decimal digit characters, indexed 0–9 (`'?'` is unreachable: every
use is at an argument `< 10`). -/
def digitChar : Nat → Char
  | 0 => '0' | 1 => '1' | 2 => '2' | 3 => '3' | 4 => '4'
  | 5 => '5' | 6 => '6' | 7 => '7' | 8 => '8' | 9 => '9'
  | _ => '?'

/-- Most-significant-first decimal digits of `n` (empty for 0); the fuel
argument makes the recursion structural and any fuel ≥ the digit count
gives the same result. -/
def natCharsAux : Nat → Nat → List Char
  | 0, _ => []
  | fuel + 1, n =>
      if n = 0 then [] else natCharsAux fuel (n / 10) ++ [digitChar (n % 10)]

/-- Decimal rendering of a natural, as `operator<<` produces it. -/
def natChars (n : Nat) : List Char :=
  if n = 0 then ['0'] else natCharsAux (n + 1) n

/-- Decimal rendering of an `int`, as `operator<<`/`std::to_string` produce
it: a `'-'` before the magnitude for negatives. -/
def intChars (i : Int) : List Char :=
  if i < 0 then '-' :: natChars i.natAbs else natChars i.toNat

/-- The character content `Game::saveGame` (game.cpp:166–177) writes: the
name line, then `health maxHealth attackPower defense`, then
`level experience gold dungeonLevel`, space-separated, each line
`'\n'`-terminated. -/
def saveGame (pl : Player) : List Char :=
  pl.name.data ++ ('\n' ::
    (intChars pl.health ++ (' ' ::
      (intChars pl.maxHealth ++ (' ' ::
        (intChars pl.attackPower ++ (' ' ::
          (intChars pl.defense ++ ('\n' ::
            (intChars pl.level ++ (' ' ::
              (intChars pl.experience ++ (' ' ::
                (intChars pl.gold ++ (' ' ::
                  (intChars pl.dungeonLevel ++ ['\n']))))))))))))))))

/-- The whitespace characters `operator>>` skips (default locale). -/
def isWs (c : Char) : Bool :=
  c = ' ' || c = '\t' || c = '\n' || c = '\r'

/-- Skip leading whitespace, as formatted extraction does. -/
def skipWs : List Char → List Char
  | [] => []
  | c :: cs => if isWs c then skipWs cs else c :: cs

/-- Numeric value of a most-significant-first digit-character list, the
accumulator pattern formatted `int` extraction uses. -/
def digitsVal (acc : Nat) (cs : List Char) : Nat :=
  cs.foldl (fun a c => a * 10 + (c.toNat - '0'.toNat)) acc

/-- `operator>>` into an `int`: skip whitespace, an optional `'-'` sign,
then a nonempty digit run; extraction failure (no digits) is `none` — the
C++ stream enters a failed state and the target is left unspecified
(game.cpp:186–187 reads into uninitialized locals).  (C++ also accepts a
leading `'+'`, which `saveGame` never writes.) -/
def readInt (cs : List Char) : Option (Int × List Char) :=
  let cs' := skipWs cs
  if cs'.head? = some '-' then
    let ds := cs'.tail.takeWhile Char.isDigit
    if ds.isEmpty then none
    else some (-(Int.ofNat (digitsVal 0 ds)), cs'.tail.dropWhile Char.isDigit)
  else
    let ds := cs'.takeWhile Char.isDigit
    if ds.isEmpty then none
    else some (Int.ofNat (digitsVal 0 ds), cs'.dropWhile Char.isDigit)

/-- `std::getline`: the characters before the first `'\n'`, and the rest
after that delimiter. -/
def getLine' (cs : List Char) : List Char × List Char :=
  (cs.takeWhile (fun c => !(c = '\n' : Bool)),
   (cs.dropWhile (fun c => !(c = '\n' : Bool))).tail)

/-- The player-record part of `Game::loadGame` (game.cpp:179–197): `getline`
the name, extract the eight integers, then rebuild the player (fresh id,
initial position `{5,5}`) and overwrite the eight stat fields.  `none`
models the undefined stats left behind by a failed extraction. -/
def loadGame (content : List Char) (nextId : Int) : Option Player :=
  let (nameCs, rest) := getLine' content
  match readInt rest with
  | none => none
  | some (hp, rest) =>
  match readInt rest with
  | none => none
  | some (maxHp, rest) =>
  match readInt rest with
  | none => none
  | some (atk, rest) =>
  match readInt rest with
  | none => none
  | some (def_, rest) =>
  match readInt rest with
  | none => none
  | some (lvl, rest) =>
  match readInt rest with
  | none => none
  | some (exp_, rest) =>
  match readInt rest with
  | none => none
  | some (gold, rest) =>
  match readInt rest with
  | none => none
  | some (dlvl, _) =>
    let pl := Player.create nextId (String.mk nameCs) (5, 5)
    some { pl with health := hp, maxHealth := maxHp, attackPower := atk,
                   defense := def_, level := lvl, experience := exp_,
                   gold := gold, dungeonLevel := dlvl }

example :
    loadGame (saveGame (Player.create 1 "Hero" (5, 5))) 2
      = some (Player.create 2 "Hero" (5, 5)) := by decide
example :
    (loadGame (saveGame { Player.create 1 "Hero" (5, 5) with gold := -3 }) 2).map
        Player.gold = some (-3) := by decide
example :
    loadGame (saveGame { Player.create 1 "He\nro" (5, 5) with gold := -3 }) 2
      = none := by decide

/-- Walkability at a position, the notion underlying the spec's "connected
walkable Floor region". -/
def Map.walkableAt (m : Map) (p : Position) : Bool := m.isWalkable p.1 p.2

/-- Four-neighbour adjacency of grid cells. -/
def Adjacent (p q : Position) : Prop :=
  (q.1 = p.1 + 1 ∧ q.2 = p.2) ∨ (q.1 = p.1 - 1 ∧ q.2 = p.2) ∨
  (q.1 = p.1 ∧ q.2 = p.2 + 1) ∨ (q.1 = p.1 ∧ q.2 = p.2 - 1)

/-- Connectivity inside the walkable region: `Reaches m p q` iff one can
walk from `p` to `q` over walkable cells in unit steps. -/
inductive Map.Reaches (m : Map) : Position → Position → Prop
  | refl (p : Position) : m.walkableAt p = true → Map.Reaches m p p
  | tail (p q r : Position) : Map.Reaches m p q → Adjacent q r →
      m.walkableAt r = true → Map.Reaches m p r

/-! ## Claims -/

/-- C1: combat is deterministic and attacker-first — the enemy's health
drops by exactly `player.attackPower`; if the enemy's health stays positive
it retaliates for exactly `max 1 (enemy.attackPower - player.defense)` and
the player's experience and gold are unchanged; if the hit brings the enemy
to ≤ 0 the player takes no damage and gains exactly `expReward` experience
and `goldReward` gold. -/
theorem handleCombat_attacker_first (gm : Game) (pl : Player) (e : Enemy) :
    ((gm.handleCombat pl e).2.2.health = e.health - pl.attackPower) ∧
    (0 < e.health - pl.attackPower →
      (gm.handleCombat pl e).2.1.health
          = pl.health - max 1 (e.attackPower - pl.defense) ∧
      (gm.handleCombat pl e).2.1.experience = pl.experience ∧
      (gm.handleCombat pl e).2.1.gold = pl.gold) ∧
    (e.health - pl.attackPower ≤ 0 →
      (gm.handleCombat pl e).2.1.health = pl.health ∧
      (gm.handleCombat pl e).2.1.experience = pl.experience + e.expReward ∧
      (gm.handleCombat pl e).2.1.gold = pl.gold + e.goldReward) := by
  simp only [Game.handleCombat, Enemy.takeDamage, Enemy.isAlive, Player.takeDamage,
    Player.isAlive, decide_eq_true_eq]
  split_ifs with h1 h2
  · exact ⟨by simp, fun _ => ⟨by simp, by simp, by simp⟩, fun hd => absurd h1 (by omega)⟩
  · exact ⟨by simp, fun _ => ⟨by simp, by simp, by simp⟩, fun hd => absurd h1 (by omega)⟩
  · exact ⟨by simp, fun hs => absurd hs h1, fun _ => ⟨by simp, by simp, by simp⟩⟩

/-- Witness for C1: a concrete exchange (Hero vs. a fresh Orc) in which the
enemy survives and retaliation is exactly `max 1 (10 − 2)`. -/
theorem handleCombat_attacker_first_witness :
    0 < (Enemy.create 2 EnemyType.Orc (0, 0)).health
        - (Player.create 1 "Hero" (0, 0)).attackPower ∧
    ((Game.init (fun _ => 0)).handleCombat (Player.create 1 "Hero" (0, 0))
        (Enemy.create 2 EnemyType.Orc (0, 0))).2.1.health
      = (Player.create 1 "Hero" (0, 0)).health
        - max 1 ((Enemy.create 2 EnemyType.Orc (0, 0)).attackPower
                  - (Player.create 1 "Hero" (0, 0)).defense) :=
  ⟨by decide,
   ((handleCombat_attacker_first (Game.init (fun _ => 0))
      (Player.create 1 "Hero" (0, 0)) (Enemy.create 2 EnemyType.Orc (0, 0))).2.1
      (by decide)).1⟩

/-- C2 counterexample: the claim's "2 for East and for West" and its
opposite-pair round-trip both fail — `Player::move` West steps by −1, so
East-then-West from the spawn position ends one cell east of the start, and
a single West step changes x by 1, not 2. -/
theorem move_east_west_not_inverse :
    (((Player.create 1 "Hero" (0, 0)).move Direction.East).move Direction.West).pos
        = (1, 0) ∧
    ¬ (((Player.create 1 "Hero" (0, 0)).move Direction.East).move Direction.West).pos
        = (0, 0) ∧
    ((Player.create 1 "Hero" (0, 0)).move Direction.West).pos = (-1, 0) := by
  decide

/-- C2 (amended): `Player.move` changes exactly one coordinate axis by the
direction's fixed delta — +2 for East, −1 for West, ∓1 for North/South.
North and South are mutually inverse from every starting position; East and
West are not: either order of the East/West pair ends one cell east of the
start. -/
theorem move_deltas (pl : Player) :
    (pl.move Direction.North).pos = (pl.pos.1, pl.pos.2 - 1) ∧
    (pl.move Direction.South).pos = (pl.pos.1, pl.pos.2 + 1) ∧
    (pl.move Direction.East).pos = (pl.pos.1 + 2, pl.pos.2) ∧
    (pl.move Direction.West).pos = (pl.pos.1 - 1, pl.pos.2) ∧
    ((pl.move Direction.North).move Direction.South).pos = pl.pos ∧
    ((pl.move Direction.South).move Direction.North).pos = pl.pos ∧
    ((pl.move Direction.East).move Direction.West).pos = (pl.pos.1 + 1, pl.pos.2) ∧
    ((pl.move Direction.West).move Direction.East).pos = (pl.pos.1 + 1, pl.pos.2) := by
  rcases pl with ⟨i, n, ⟨x, y⟩, h1, h2, h3, h4, h5, h6, h7, h8, h9⟩
  simp [Player.move]
  omega

/-- C7: an `Enemy` constructed with the Dragon archetype has current health
0 but `maxHealth` 200; every other archetype spawns with current health
equal to its `maxHealth`. -/
theorem dragon_spawns_dead (i : Int) (p : Position) :
    (Enemy.create i EnemyType.Dragon p).health = 0 ∧
    (Enemy.create i EnemyType.Dragon p).maxHealth = 200 ∧
    (∀ t : EnemyType, t ≠ EnemyType.Dragon →
      (Enemy.create i t p).health = (Enemy.create i t p).maxHealth) := by
  refine ⟨rfl, rfl, ?_⟩
  intro t ht
  cases t <;> simp_all [Enemy.create]

/-- Witness for C7: the Goblin archetype spawns at full health while the
Dragon spawns dead. -/
theorem dragon_spawns_dead_witness :
    (EnemyType.Goblin ≠ EnemyType.Dragon) ∧
    (Enemy.create 3 EnemyType.Goblin (1, 1)).health
      = (Enemy.create 3 EnemyType.Goblin (1, 1)).maxHealth :=
  ⟨by decide, (dragon_spawns_dead 3 (1, 1)).2.2 EnemyType.Goblin (by decide)⟩

/-- One `addMessage` step keeps any log at or below the capacity. -/
lemma addMessageList_length_le (log : List String) (m : String)
    (h : log.length ≤ MAX_MESSAGES) :
    (addMessageList log m).length ≤ MAX_MESSAGES := by
  simp only [addMessageList]
  split_ifs with hgt
  · simp_all [List.length_tail]
  · simp_all

/-- Folding `addMessageList` from the empty log keeps exactly the most
recent `MAX_MESSAGES` messages, in order. -/
lemma foldl_addMessageList_eq_drop (msgs : List String) :
    msgs.foldl addMessageList [] = msgs.drop (msgs.length - MAX_MESSAGES) := by
  induction msgs using List.reverseRecOn with
  | nil => simp
  | append_singleton l a ih =>
    rw [List.foldl_append, List.foldl_cons, List.foldl_nil, ih]
    unfold addMessageList MAX_MESSAGES
    by_cases hl : l.length ≤ 4
    · have h0 : l.length - MAX_MESSAGES = 0 := by unfold MAX_MESSAGES; omega
      have h0' : (l ++ [a]).length - MAX_MESSAGES = 0 := by
        unfold MAX_MESSAGES; simp; omega
      unfold MAX_MESSAGES at h0 h0'
      rw [h0, h0', List.drop_zero, List.drop_zero,
        if_neg (by simp; omega)]
    · have hlen : (l.drop (l.length - MAX_MESSAGES)).length = MAX_MESSAGES := by
        unfold MAX_MESSAGES; simp; omega
      unfold MAX_MESSAGES at hlen
      rw [if_pos (by simp [hlen])]
      have hne : l.drop (l.length - 5) ≠ [] := by
        intro hnil
        rw [hnil] at hlen
        simp at hlen
      rw [List.tail_append_of_ne_nil hne, List.tail_drop]
      have harith : (l ++ [a]).length - 5 = (l.length - 5) + 1 := by simp; omega
      rw [harith, List.drop_append_of_le_length (by omega)]

/-- The `Game`-level fold of `addMessage` acts on the `messages` field as
the list-level fold. -/
lemma foldl_addMessage_messages (gm : Game) (msgs : List String) :
    (msgs.foldl Game.addMessage gm).messages = msgs.foldl addMessageList gm.messages := by
  induction msgs generalizing gm with
  | nil => rfl
  | cons m rest ih => rw [List.foldl_cons, List.foldl_cons, ih]; rfl

/-- C8: starting from an empty log, after any sequence of `addMessage`
calls the log holds at most `MAX_MESSAGES` (= 5) entries, the surviving
entries are exactly the most recent five in their original order (the
oldest entries having been evicted first), and a single `addMessage` step
never grows a within-capacity log beyond the capacity. -/
theorem addMessage_fifo_bound (gm : Game) (msgs : List String)
    (h : gm.messages = []) :
    ((msgs.foldl Game.addMessage gm).messages).length ≤ MAX_MESSAGES ∧
    (msgs.foldl Game.addMessage gm).messages
        = msgs.drop (msgs.length - MAX_MESSAGES) ∧
    (∀ (log : List String) (m : String), log.length ≤ MAX_MESSAGES →
      (addMessageList log m).length ≤ MAX_MESSAGES) := by
  have hdrop : (msgs.foldl Game.addMessage gm).messages
      = msgs.drop (msgs.length - MAX_MESSAGES) := by
    rw [foldl_addMessage_messages, h, foldl_addMessageList_eq_drop]
  refine ⟨?_, hdrop, fun log m hm => addMessageList_length_le log m hm⟩
  rw [hdrop]
  simp [List.length_drop]
  omega

/-- Witness for C8: seven messages into a fresh session leave exactly the
last five. -/
theorem addMessage_fifo_bound_witness :
    (Game.init (fun _ => 0)).messages = [] ∧
    (["a", "b", "c", "d", "e", "f", "g"].foldl Game.addMessage
        (Game.init (fun _ => 0))).messages
      = ["a", "b", "c", "d", "e", "f", "g"].drop
          (["a", "b", "c", "d", "e", "f", "g"].length - MAX_MESSAGES) :=
  ⟨rfl,
   (addMessage_fifo_bound (Game.init (fun _ => 0))
      ["a", "b", "c", "d", "e", "f", "g"] rfl).2.1⟩

/-! ### Decimal round-trip lemmas for the save/load claim -/

lemma digitChar_isDigit {d : Nat} (h : d < 10) : (digitChar d).isDigit = true := by
  interval_cases d <;> decide

lemma digitChar_toNat {d : Nat} (h : d < 10) : (digitChar d).toNat = 48 + d := by
  interval_cases d <;> decide

lemma isDigit_not_ws {c : Char} (h : c.isDigit = true) : isWs c = false := by
  by_cases h1 : c = ' '
  · subst h1; simp at h
  by_cases h2 : c = '\t'
  · subst h2; simp at h
  by_cases h3 : c = '\n'
  · subst h3; simp at h
  by_cases h4 : c = '\r'
  · subst h4; simp at h
  simp [isWs, h1, h2, h3, h4]

lemma isDigit_ne_dash {c : Char} (h : c.isDigit = true) : c ≠ '-' := by
  rintro rfl
  simp at h

lemma natCharsAux_digits (fuel n : Nat) (hn : n ≤ fuel) :
    ∀ c ∈ natCharsAux fuel n, c.isDigit = true := by
  induction fuel generalizing n with
  | zero => simp [natCharsAux]
  | succ fuel ih =>
    intro c hc
    rw [natCharsAux] at hc
    split_ifs at hc with h0
    · simp at hc
    · rcases List.mem_append.1 hc with h | h
      · exact ih (n / 10) (by omega) c h
      · simp at h
        subst h
        exact digitChar_isDigit (Nat.mod_lt _ (by omega))

lemma natCharsAux_ne_nil (fuel n : Nat) (h0 : n ≠ 0) (hf : fuel ≠ 0) :
    natCharsAux fuel n ≠ [] := by
  cases fuel with
  | zero => exact absurd rfl hf
  | succ fuel => simp [natCharsAux, h0]

lemma digitsVal_natCharsAux (fuel n : Nat) (hn : n ≤ fuel) (acc : Nat) :
    ∃ k : Nat, digitsVal acc (natCharsAux fuel n) = acc * 10 ^ k + n := by
  induction fuel generalizing n acc with
  | zero =>
    refine ⟨0, ?_⟩
    interval_cases n
    simp [natCharsAux, digitsVal]
  | succ fuel ih =>
    rw [natCharsAux]
    split_ifs with h0
    · subst h0; exact ⟨0, by simp [digitsVal]⟩
    · obtain ⟨k, hk⟩ := ih (n / 10) (by omega) acc
      refine ⟨k + 1, ?_⟩
      unfold digitsVal at *
      rw [List.foldl_append, hk]
      have hd : (digitChar (n % 10)).toNat - '0'.toNat = n % 10 := by
        rw [digitChar_toNat (Nat.mod_lt n (by omega))]
        show 48 + n % 10 - 48 = n % 10
        omega
      simp only [List.foldl_cons, List.foldl_nil, hd]
      rw [Nat.pow_succ, ← Nat.mul_assoc]
      have := Nat.div_add_mod n 10
      omega

lemma digitsVal_natChars (n : Nat) : digitsVal 0 (natChars n) = n := by
  unfold natChars
  split_ifs with h0
  · subst h0; decide
  · obtain ⟨k, hk⟩ := digitsVal_natCharsAux (n + 1) n (by omega) 0
    simpa using hk

lemma natChars_digits (n : Nat) : ∀ c ∈ natChars n, c.isDigit = true := by
  unfold natChars
  split_ifs with h0
  · simp
  · exact natCharsAux_digits (n + 1) n (by omega)

lemma natChars_ne_nil (n : Nat) : natChars n ≠ [] := by
  unfold natChars
  split_ifs with h0
  · simp
  · exact natCharsAux_ne_nil (n + 1) n h0 (by omega)

/-- `skipWs` does nothing when the head is not whitespace. -/
lemma skipWs_cons_of_not_ws {c : Char} (cs : List Char) (h : isWs c = false) :
    skipWs (c :: cs) = c :: cs := by
  simp [skipWs, h]

/-- `skipWs` drops a whitespace head. -/
lemma skipWs_cons_of_ws {c : Char} (cs : List Char) (h : isWs c = true) :
    skipWs (c :: cs) = skipWs cs := by
  simp [skipWs, h]

/-- `operator>>` ignores a leading whitespace character. -/
lemma readInt_cons_ws (c : Char) (cs : List Char) (h : isWs c = true) :
    readInt (c :: cs) = readInt cs := by
  unfold readInt
  rw [skipWs_cons_of_ws cs h]

/-- `takeWhile isDigit` over an all-digit prefix followed by a non-digit
head stops exactly at the boundary. -/
lemma takeWhile_digits_append (ds rest : List Char)
    (hds : ∀ c ∈ ds, c.isDigit = true)
    (hrest : ∀ c ∈ rest.head?, c.isDigit = false) :
    (ds ++ rest).takeWhile Char.isDigit = ds := by
  rw [List.takeWhile_append_of_pos hds]
  cases rest with
  | nil => simp
  | cons r rs =>
    simp only [Option.mem_def, List.head?_cons, Option.some.injEq, forall_eq'] at hrest
    rw [List.takeWhile_cons_of_neg (by simp [hrest])]
    simp

/-- Companion to `takeWhile_digits_append` for the remainder. -/
lemma dropWhile_digits_append (ds rest : List Char)
    (hds : ∀ c ∈ ds, c.isDigit = true)
    (hrest : ∀ c ∈ rest.head?, c.isDigit = false) :
    (ds ++ rest).dropWhile Char.isDigit = rest := by
  rw [List.dropWhile_append_of_pos hds]
  cases rest with
  | nil => simp
  | cons r rs =>
    simp only [Option.mem_def, List.head?_cons, Option.some.injEq, forall_eq'] at hrest
    rw [List.dropWhile_cons_of_neg (by simp [hrest])]

/-- Reading back a rendered integer consumes exactly its characters and
returns its value, for any continuation that does not start with a digit
or a dash. -/
lemma readInt_intChars (i : Int) (rest : List Char)
    (hrest : ∀ c ∈ rest.head?, c.isDigit = false) :
    readInt (intChars i ++ rest) = some (i, rest) := by
  unfold intChars
  split_ifs with hneg
  · -- negative: '-' then the magnitude's digits
    have htake := takeWhile_digits_append (natChars i.natAbs) rest (natChars_digits _) hrest
    have hdrop := dropWhile_digits_append (natChars i.natAbs) rest (natChars_digits _) hrest
    rw [List.cons_append, readInt, skipWs_cons_of_not_ws _ (by decide)]
    have habs : (i.natAbs : Int) = -i := by omega
    simp [htake, hdrop, natChars_ne_nil, digitsVal_natChars, habs]
  · -- nonnegative: plain digit run
    obtain ⟨c, t, hct⟩ := List.exists_cons_of_ne_nil (natChars_ne_nil i.toNat)
    have hcdig : c.isDigit = true := natChars_digits i.toNat c (by rw [hct]; simp)
    have htake := takeWhile_digits_append (natChars i.toNat) rest (natChars_digits _) hrest
    have hdrop := dropWhile_digits_append (natChars i.toNat) rest (natChars_digits _) hrest
    have hhead : (natChars i.toNat ++ rest).head? = some c := by rw [hct]; rfl
    have hskip : skipWs (natChars i.toNat ++ rest) = natChars i.toNat ++ rest := by
      rw [hct, List.cons_append]
      exact skipWs_cons_of_not_ws _ (isDigit_not_ws hcdig)
    rw [readInt, hskip]
    simp [hhead, isDigit_ne_dash hcdig, htake, hdrop, natChars_ne_nil, digitsVal_natChars]
    omega

/-- `getline` splits the saved content at the first newline. -/
lemma getLine'_append (name rest : List Char) (h : '\n' ∉ name) :
    getLine' (name ++ '\n' :: rest) = (name, rest) := by
  unfold getLine'
  rw [List.takeWhile_append_of_pos (by intro a ha; simp; rintro rfl; exact h ha),
    List.dropWhile_append_of_pos (by intro a ha; simp; rintro rfl; exact h ha),
    List.takeWhile_cons_of_neg (by simp), List.dropWhile_cons_of_neg (by simp)]
  simp

/-! ### Structural lemmas on the session operations -/

lemma handleCombat_player_pos (gm : Game) (pl : Player) (e : Enemy) :
    (gm.handleCombat pl e).2.1.pos = pl.pos := by
  simp only [Game.handleCombat]
  split_ifs <;> rfl

lemma handleCombat_player_dungeonLevel (gm : Game) (pl : Player) (e : Enemy) :
    (gm.handleCombat pl e).2.1.dungeonLevel = pl.dungeonLevel := by
  simp only [Game.handleCombat]
  split_ifs <;> rfl

lemma handleCombat_game_player (gm : Game) (pl : Player) (e : Enemy) :
    (gm.handleCombat pl e).1.player = gm.player := by
  simp only [Game.handleCombat, Game.addMessage]
  split_ifs <;> rfl

lemma handleCombat_game_map (gm : Game) (pl : Player) (e : Enemy) :
    (gm.handleCombat pl e).1.map = gm.map := by
  simp only [Game.handleCombat, Game.addMessage]
  split_ifs <;> rfl

lemma handleCombat_game_rng (gm : Game) (pl : Player) (e : Enemy) :
    (gm.handleCombat pl e).1.rng = gm.rng := by
  simp only [Game.handleCombat, Game.addMessage]
  split_ifs <;> rfl

lemma handleCombat_game_enemies (gm : Game) (pl : Player) (e : Enemy) :
    (gm.handleCombat pl e).1.enemies = gm.enemies := by
  simp only [Game.handleCombat, Game.addMessage]
  split_ifs <;> rfl

lemma handleCombat_game_floorItems (gm : Game) (pl : Player) (e : Enemy) :
    (gm.handleCombat pl e).1.floorItems = gm.floorItems := by
  simp only [Game.handleCombat, Game.addMessage]
  split_ifs <;> rfl

/-- `Player.move` only changes the position. -/
lemma move_preserves_stats (pl : Player) (dir : Direction) :
    (pl.move dir).health = pl.health ∧ (pl.move dir).experience = pl.experience ∧
    (pl.move dir).gold = pl.gold ∧ (pl.move dir).dungeonLevel = pl.dungeonLevel := by
  cases dir <;> exact ⟨rfl, rfl, rfl, rfl⟩

lemma intRange_length (lo hi : Int) : (intRange lo hi).length = (hi - lo).toNat := by
  unfold intRange
  rw [List.length_map, List.length_range]

lemma spawnEnemies_player (gm : Game) (c : Int) :
    (gm.spawnEnemies c).player = gm.player := by
  unfold Game.spawnEnemies
  generalize intRange 0 c = l
  induction l generalizing gm with
  | nil => rfl
  | cons x xs ih => rw [List.foldl_cons]; exact ih _

lemma spawnEnemies_map (gm : Game) (c : Int) :
    (gm.spawnEnemies c).map = gm.map := by
  unfold Game.spawnEnemies
  generalize intRange 0 c = l
  induction l generalizing gm with
  | nil => rfl
  | cons x xs ih => rw [List.foldl_cons]; exact ih _

lemma spawnEnemies_state (gm : Game) (c : Int) :
    (gm.spawnEnemies c).state = gm.state := by
  unfold Game.spawnEnemies
  generalize intRange 0 c = l
  induction l generalizing gm with
  | nil => rfl
  | cons x xs ih => rw [List.foldl_cons]; exact ih _

lemma spawnEnemies_messages (gm : Game) (c : Int) :
    (gm.spawnEnemies c).messages = gm.messages := by
  unfold Game.spawnEnemies
  generalize intRange 0 c = l
  induction l generalizing gm with
  | nil => rfl
  | cons x xs ih => rw [List.foldl_cons]; exact ih _

lemma spawnEnemies_floorItems (gm : Game) (c : Int) :
    (gm.spawnEnemies c).floorItems = gm.floorItems := by
  unfold Game.spawnEnemies
  generalize intRange 0 c = l
  induction l generalizing gm with
  | nil => rfl
  | cons x xs ih => rw [List.foldl_cons]; exact ih _

lemma spawnEnemies_enemies_length (gm : Game) (c : Int) :
    (gm.spawnEnemies c).enemies.length = gm.enemies.length + c.toNat := by
  have key : ∀ (l : List Int) (gm : Game),
      ((l.foldl (fun gm _ =>
        let (e, g) := spawnOneEnemy gm.nextEntityId gm.rng
        { gm with enemies := gm.enemies ++ [e], nextEntityId := gm.nextEntityId + 1,
                  rng := g }) gm).enemies).length = gm.enemies.length + l.length := by
    intro l
    induction l with
    | nil => intro gm; simp
    | cons x xs ih =>
      intro gm
      rw [List.foldl_cons, ih]
      simp
      omega
  unfold Game.spawnEnemies
  rw [key, intRange_length]
  omega

/-- Every enemy present after `spawnEnemies` was already there or is a
fresh `Enemy.create`. -/
lemma spawnEnemies_mem (gm : Game) (c : Int) :
    ∀ e ∈ (gm.spawnEnemies c).enemies,
      e ∈ gm.enemies ∨ ∃ i t p, e = Enemy.create i t p := by
  have key : ∀ (l : List Int) (gm : Game),
      ∀ e ∈ ((l.foldl (fun gm _ =>
        let (e, g) := spawnOneEnemy gm.nextEntityId gm.rng
        { gm with enemies := gm.enemies ++ [e], nextEntityId := gm.nextEntityId + 1,
                  rng := g }) gm).enemies),
        e ∈ gm.enemies ∨ ∃ i t p, e = Enemy.create i t p := by
    intro l
    induction l with
    | nil => intro gm e he; exact Or.inl he
    | cons x xs ih =>
      intro gm e he
      rw [List.foldl_cons] at he
      rcases ih _ e he with h | h
      · simp only [List.mem_append, List.mem_singleton] at h
        rcases h with h | h
        · exact Or.inl h
        · subst h
          exact Or.inr ⟨gm.nextEntityId, _, _, rfl⟩
      · exact Or.inr h
  exact key _ gm

lemma spawnItems_player (gm : Game) (c : Int) :
    (gm.spawnItems c).player = gm.player := by
  unfold Game.spawnItems
  generalize intRange 0 c = l
  induction l generalizing gm with
  | nil => rfl
  | cons x xs ih => rw [List.foldl_cons]; exact ih _

lemma spawnItems_map (gm : Game) (c : Int) :
    (gm.spawnItems c).map = gm.map := by
  unfold Game.spawnItems
  generalize intRange 0 c = l
  induction l generalizing gm with
  | nil => rfl
  | cons x xs ih => rw [List.foldl_cons]; exact ih _

lemma spawnItems_state (gm : Game) (c : Int) :
    (gm.spawnItems c).state = gm.state := by
  unfold Game.spawnItems
  generalize intRange 0 c = l
  induction l generalizing gm with
  | nil => rfl
  | cons x xs ih => rw [List.foldl_cons]; exact ih _

lemma spawnItems_messages (gm : Game) (c : Int) :
    (gm.spawnItems c).messages = gm.messages := by
  unfold Game.spawnItems
  generalize intRange 0 c = l
  induction l generalizing gm with
  | nil => rfl
  | cons x xs ih => rw [List.foldl_cons]; exact ih _

lemma spawnItems_enemies (gm : Game) (c : Int) :
    (gm.spawnItems c).enemies = gm.enemies := by
  unfold Game.spawnItems
  generalize intRange 0 c = l
  induction l generalizing gm with
  | nil => rfl
  | cons x xs ih => rw [List.foldl_cons]; exact ih _

lemma spawnItems_floorItems_length (gm : Game) (c : Int) :
    (gm.spawnItems c).floorItems.length = gm.floorItems.length + c.toNat := by
  have key : ∀ (l : List Int) (gm : Game),
      ((l.foldl (fun gm _ =>
        let (_, g) := uniformInt 1 (MAP_WIDTH - 2) gm.rng
        let (_, g) := uniformInt 1 (MAP_HEIGHT - 2) g
        { gm with
            floorItems := gm.floorItems ++ [⟨"Health Potion", ItemType.Potion, '!', 20, 0, 25⟩],
            rng := g }) gm).floorItems).length = gm.floorItems.length + l.length := by
    intro l
    induction l with
    | nil => intro gm; simp
    | cons x xs ih =>
      intro gm
      rw [List.foldl_cons, ih]
      simp
      omega
  unfold Game.spawnItems
  rw [key, intRange_length]
  omega

/-- The most recent message is always the last log entry. -/
lemma addMessageList_getLast (log : List String) (msg : String) :
    (addMessageList log msg).getLast? = some msg := by
  simp only [addMessageList]
  split_ifs with hgt
  · have hne : log ≠ [] := by
      intro hnil
      subst hnil
      simp [MAX_MESSAGES] at hgt
    rw [List.tail_append_of_ne_nil hne, List.getLast?_concat]
  · exact List.getLast?_concat _

/-- Full characterization of `Game::nextLevel` when a player exists. -/
lemma nextLevel_spec (gm : Game) (pl : Player) (hpl : gm.player = some pl) :
    ∃ pl', (gm.nextLevel).player = some pl' ∧
      pl'.dungeonLevel = pl.dungeonLevel + 1 ∧
      pl'.pos = (cppDiv MAP_WIDTH 4 + 1, cppDiv MAP_HEIGHT 4 + 1) ∧
      pl'.health = pl.health ∧ pl'.experience = pl.experience ∧
      pl'.gold = pl.gold ∧
      (gm.nextLevel).map
        = some (DungeonGenerator.generate MAP_WIDTH MAP_HEIGHT gm.rng).1 ∧
      (gm.nextLevel).enemies.length = (5 + (pl.dungeonLevel + 1)).toNat ∧
      (gm.nextLevel).floorItems.length = gm.floorItems.length + 3 ∧
      (gm.nextLevel).messages.getLast?
        = some ("You descend to dungeon level " ++ toString (pl.dungeonLevel + 1)) := by
  unfold Game.nextLevel
  rw [hpl]
  dsimp only
  rcases hg : DungeonGenerator.generate MAP_WIDTH MAP_HEIGHT gm.rng with ⟨m2, g2⟩
  dsimp only
  refine ⟨{ pl with
      dungeonLevel := pl.dungeonLevel + 1
      pos := (cppDiv MAP_WIDTH 4 + 1, cppDiv MAP_HEIGHT 4 + 1) },
    ?_, rfl, rfl, rfl, rfl, rfl, ?_, ?_, ?_, ?_⟩
  · rw [Game.addMessage]
    dsimp only
    rw [spawnItems_player, spawnEnemies_player]
  · rw [Game.addMessage]
    dsimp only
    rw [spawnItems_map, spawnEnemies_map]
  · rw [Game.addMessage]
    dsimp only
    rw [spawnItems_enemies, spawnEnemies_enemies_length]
    simp
  · rw [Game.addMessage]
    dsimp only
    rw [spawnItems_floorItems_length, spawnEnemies_floorItems]
    simp
  · rw [Game.addMessage]
    dsimp only
    rw [spawnItems_messages, spawnEnemies_messages]
    exact addMessageList_getLast _ _

/-- Decomposition of `Game::handleMovement` when a player and a map exist:
the result is the pre-stairs session (moved player, possible combat
write-back), run through `nextLevel` exactly when the destination tile is
`StairsDown`. -/
lemma handleMovement_split (gm : Game) (dir : Direction) (pl : Player) (m : Map)
    (hpl : gm.player = some pl) (hm : gm.map = some m) :
    ∃ (gm2 : Game) (pl2 : Player),
      gm.handleMovement dir
        = (if (m.getTile (pl.move dir).pos.1 (pl.move dir).pos.2).type
              = TileType.StairsDown then gm2.nextLevel else gm2) ∧
      gm2.player = some pl2 ∧
      gm2.map = gm.map ∧ gm2.rng = gm.rng ∧ gm2.floorItems = gm.floorItems ∧
      pl2.pos = (pl.move dir).pos ∧ pl2.dungeonLevel = pl.dungeonLevel ∧
      (gm.enemies.findIdx?
          (fun e => decide (e.pos = (pl.move dir).pos) && e.isAlive) = none →
        gm2 = { gm with player := some (pl.move dir) } ∧ pl2 = pl.move dir) := by
  unfold Game.handleMovement
  rw [hpl, hm]
  dsimp only
  cases hidx : gm.enemies.findIdx?
      (fun e => decide (e.pos = (pl.move dir).pos) && e.isAlive) with
  | none =>
    dsimp only
    exact ⟨_, pl.move dir, rfl, rfl, rfl, rfl, rfl, rfl,
      (move_preserves_stats pl dir).2.2.2, fun _ => ⟨rfl, rfl⟩⟩
  | some i =>
    dsimp only
    cases hget : gm.enemies.get? i with
    | none =>
      dsimp only
      exact ⟨_, pl.move dir, rfl, rfl, rfl, rfl, rfl, rfl,
        (move_preserves_stats pl dir).2.2.2,
        fun hc => Option.noConfusion hc⟩
    | some e =>
      dsimp only
      refine ⟨_, _, rfl, rfl, ?_, ?_, ?_, ?_, ?_,
        fun hc => Option.noConfusion hc⟩
      · exact handleCombat_game_map _ _ _
      · exact handleCombat_game_rng _ _ _
      · exact handleCombat_game_floorItems _ _ _
      · rw [handleCombat_player_pos]
      · rw [handleCombat_player_dungeonLevel]
        exact (move_preserves_stats pl dir).2.2.2

/-- The moved position, spelled out per direction. -/
lemma move_pos_eq (pl : Player) (dir : Direction) :
    (pl.move dir).pos = (match dir with
      | Direction.North => (pl.pos.1, pl.pos.2 - 1)
      | Direction.South => (pl.pos.1, pl.pos.2 + 1)
      | Direction.East => (pl.pos.1 + 2, pl.pos.2)
      | Direction.West => (pl.pos.1 - 1, pl.pos.2)) := by
  rcases pl with ⟨i, n, ⟨x, y⟩, h1, h2, h3, h4, h5, h6, h7, h8, h9⟩
  cases dir <;> rfl

/-- C3: with a player and a map present, `handleMovement` applies the
direction delta to the player unconditionally — no walkability or bounds
check gates it (the destination may be a Wall tile or outside the map);
the only tile that triggers further repositioning is `StairsDown` (the
level transition, claim C5).  Without a player or a map it is a silent
no-op leaving the whole session unchanged. -/
theorem handleMovement_unconditional (gm : Game) (dir : Direction) :
    (∀ pl m, gm.player = some pl → gm.map = some m →
      (m.getTile (pl.move dir).pos.1 (pl.move dir).pos.2).type
          ≠ TileType.StairsDown →
      ∃ pl', (gm.handleMovement dir).player = some pl' ∧
        pl'.pos = (match dir with
          | Direction.North => (pl.pos.1, pl.pos.2 - 1)
          | Direction.South => (pl.pos.1, pl.pos.2 + 1)
          | Direction.East => (pl.pos.1 + 2, pl.pos.2)
          | Direction.West => (pl.pos.1 - 1, pl.pos.2))) ∧
    (gm.player = none → gm.handleMovement dir = gm) ∧
    (gm.map = none → gm.handleMovement dir = gm) := by
  refine ⟨?_, ?_, ?_⟩
  · intro pl m hpl hm hns
    obtain ⟨gm2, pl2, heq, hp2, _, _, _, hpos, _, _⟩ :=
      handleMovement_split gm dir pl m hpl hm
    rw [heq, if_neg hns]
    exact ⟨pl2, hp2, by rw [hpos, move_pos_eq]⟩
  · intro h
    unfold Game.handleMovement
    rw [h]
  · intro h
    unfold Game.handleMovement
    rw [h]
    cases hp : gm.player <;> rfl

/-- Witness for C3: moving West from the room corner lands at `(-1, 0)` —
outside the map, on a (default) Wall tile — and the move still succeeds. -/
theorem handleMovement_unconditional_witness :
    ((Map.create 8 8).getTile (-1) 0).type ≠ TileType.StairsDown ∧
    (Map.create 8 8).isWalkable (-1) 0 = false ∧
    ∃ pl', (((⟨GameState.Playing, some (Player.create 1 "a" (0, 0)),
        some (Map.create 8 8), [], [], [], 2, fun _ => 0⟩ : Game)).handleMovement
          Direction.West).player = some pl' ∧
      pl'.pos = ((-1 : Int), (0 : Int)) := by
  refine ⟨by decide, by decide, ?_⟩
  obtain ⟨pl', h1, h2⟩ :=
    (handleMovement_unconditional
      (⟨GameState.Playing, some (Player.create 1 "a" (0, 0)),
        some (Map.create 8 8), [], [], [], 2, fun _ => 0⟩ : Game) Direction.West).1
      (Player.create 1 "a" (0, 0)) (Map.create 8 8) rfl rfl (by decide)
  exact ⟨pl', h1, by rw [h2]; decide⟩

/-- C10: `getEnemyAt` only ever returns a live enemy (health > 0), and
moving onto a cell occupied only by dead enemies (for example a Dragon that
spawned dead) triggers no combat: the player's health, experience and gold
are unchanged, and — when the destination is not the stairs — the enemy
list is untouched, so no damage is dealt in either direction and nothing is
awarded. -/
theorem deadEnemies_no_combat (gm : Game) (dir : Direction) (pl : Player) (m : Map)
    (hpl : gm.player = some pl) (hm : gm.map = some m)
    (hdead : ∀ e ∈ gm.enemies, e.pos = (pl.move dir).pos → e.health ≤ 0) :
    (∀ p e', gm.getEnemyAt p = some e' → 0 < e'.health) ∧
    (∃ pl', (gm.handleMovement dir).player = some pl' ∧
      pl'.health = pl.health ∧ pl'.experience = pl.experience ∧
      pl'.gold = pl.gold) ∧
    ((m.getTile (pl.move dir).pos.1 (pl.move dir).pos.2).type
        ≠ TileType.StairsDown →
      (gm.handleMovement dir).enemies = gm.enemies) := by
  have hnone : gm.enemies.findIdx?
      (fun e => decide (e.pos = (pl.move dir).pos) && e.isAlive) = none := by
    rw [List.findIdx?_eq_none_iff]
    intro x hx
    by_cases hp : x.pos = (pl.move dir).pos
    · have hle := hdead x hx hp
      have hdead' : x.isAlive = false := by
        simp [Enemy.isAlive]
        omega
      simp [hdead']
    · simp [hp]
  obtain ⟨gm2, pl2, heq, hp2, _, _, _, _, _, hid⟩ :=
    handleMovement_split gm dir pl m hpl hm
  obtain ⟨hgm2, hpl2⟩ := hid hnone
  obtain ⟨hmh, hme, hmg, _⟩ := move_preserves_stats pl dir
  refine ⟨?_, ?_, ?_⟩
  · intro p e' h
    have h2 := List.find?_some h
    simp only [Bool.and_eq_true, decide_eq_true_eq, Enemy.isAlive] at h2
    exact h2.2
  · rw [heq]
    split_ifs with hs
    · obtain ⟨pl', hp', _, _, hh, he, hg, _⟩ := nextLevel_spec gm2 pl2 hp2
      exact ⟨pl', hp', by rw [hh, hpl2, hmh], by rw [he, hpl2, hme],
        by rw [hg, hpl2, hmg]⟩
    · exact ⟨pl2, hp2, by rw [hpl2, hmh], by rw [hpl2, hme], by rw [hpl2, hmg]⟩
  · intro hns
    rw [heq, if_neg hns, hgm2]

/-- Witness for C10: stepping East onto a dead Dragon's cell — no combat,
stats unchanged, the corpse untouched. -/
theorem deadEnemies_no_combat_witness :
    (∀ e ∈ [Enemy.create 5 EnemyType.Dragon (2, 0)],
        e.pos = ((Player.create 1 "a" (0, 0)).move Direction.East).pos →
        e.health ≤ 0) ∧
    ∃ pl', (((⟨GameState.Playing, some (Player.create 1 "a" (0, 0)),
        some (Map.create 8 8), [Enemy.create 5 EnemyType.Dragon (2, 0)],
        [], [], 6, fun _ => 0⟩ : Game)).handleMovement Direction.East).player
          = some pl' ∧
      pl'.health = (Player.create 1 "a" (0, 0)).health ∧
      pl'.experience = (Player.create 1 "a" (0, 0)).experience ∧
      pl'.gold = (Player.create 1 "a" (0, 0)).gold :=
  ⟨by decide,
   (deadEnemies_no_combat
      (⟨GameState.Playing, some (Player.create 1 "a" (0, 0)),
        some (Map.create 8 8), [Enemy.create 5 EnemyType.Dragon (2, 0)],
        [], [], 6, fun _ => 0⟩ : Game) Direction.East
      (Player.create 1 "a" (0, 0)) (Map.create 8 8) rfl rfl (by decide)).2.1⟩

/-- C5: when the destination tile is `StairsDown`, `handleMovement` runs the
level transition after any combat: the player's `dungeonLevel` is
incremented by exactly 1, the map is replaced by a freshly generated one of
the fixed dimensions, the player is repositioned at the fixed spawn offset,
the enemy set is replaced by exactly `5 + newDungeonLevel` fresh enemies,
exactly 3 floor items are added, and a descent message is appended; in
particular descending from dungeonLevel 1 leaves 7 enemies. -/
theorem stairs_trigger_nextLevel (gm : Game) (dir : Direction) (pl : Player) (m : Map)
    (hpl : gm.player = some pl) (hm : gm.map = some m)
    (hs : (m.getTile (pl.move dir).pos.1 (pl.move dir).pos.2).type
        = TileType.StairsDown) :
    ∃ pl', (gm.handleMovement dir).player = some pl' ∧
      pl'.dungeonLevel = pl.dungeonLevel + 1 ∧
      pl'.pos = (cppDiv MAP_WIDTH 4 + 1, cppDiv MAP_HEIGHT 4 + 1) ∧
      (gm.handleMovement dir).map
        = some (DungeonGenerator.generate MAP_WIDTH MAP_HEIGHT gm.rng).1 ∧
      (gm.handleMovement dir).enemies.length = (5 + (pl.dungeonLevel + 1)).toNat ∧
      (pl.dungeonLevel = 1 → (gm.handleMovement dir).enemies.length = 7) ∧
      (gm.handleMovement dir).floorItems.length = gm.floorItems.length + 3 ∧
      (gm.handleMovement dir).messages.getLast?
        = some ("You descend to dungeon level " ++ toString (pl.dungeonLevel + 1)) := by
  obtain ⟨gm2, pl2, heq, hp2, _, hrng, hitems, _, hdl, _⟩ :=
    handleMovement_split gm dir pl m hpl hm
  rw [heq, if_pos hs]
  obtain ⟨pl', hp', hdl', hpos', _, _, _, hmap', hlen', hitems', hmsg'⟩ :=
    nextLevel_spec gm2 pl2 hp2
  refine ⟨pl', hp', by rw [hdl', hdl], hpos', by rw [hmap', hrng],
    by rw [hlen', hdl], ?_, by rw [hitems', hitems], by rw [hmsg', hdl]⟩
  intro h1
  rw [hlen', hdl, h1]
  decide

/-- Witness for C5: stepping East onto a stairs tile from dungeon level 1
yields level 2 and exactly 7 enemies. -/
theorem stairs_trigger_nextLevel_witness :
    (((Map.create 8 8).setTile 2 0 TileType.StairsDown).getTile
        ((Player.create 1 "a" (0, 0)).move Direction.East).pos.1
        ((Player.create 1 "a" (0, 0)).move Direction.East).pos.2).type
      = TileType.StairsDown ∧
    ∃ pl', (((⟨GameState.Playing, some (Player.create 1 "a" (0, 0)),
        some ((Map.create 8 8).setTile 2 0 TileType.StairsDown),
        [], [], [], 7, fun _ => 0⟩ : Game)).handleMovement Direction.East).player
          = some pl' ∧
      pl'.dungeonLevel = 2 ∧
      (((⟨GameState.Playing, some (Player.create 1 "a" (0, 0)),
        some ((Map.create 8 8).setTile 2 0 TileType.StairsDown),
        [], [], [], 7, fun _ => 0⟩ : Game)).handleMovement Direction.East).enemies.length
          = 7 := by
  refine ⟨by decide, ?_⟩
  obtain ⟨pl', hp', hdl', _, _, _, hseven, _, _⟩ :=
    stairs_trigger_nextLevel
      (⟨GameState.Playing, some (Player.create 1 "a" (0, 0)),
        some ((Map.create 8 8).setTile 2 0 TileType.StairsDown),
        [], [], [], 7, fun _ => 0⟩ : Game) Direction.East
      (Player.create 1 "a" (0, 0)) ((Map.create 8 8).setTile 2 0 TileType.StairsDown)
      rfl rfl (by decide)
  exact ⟨pl', hp', by rw [hdl']; decide, hseven rfl⟩

/-- Health at spawn is positive exactly for non-Dragon archetypes. -/
lemma create_health_pos_iff (i : Int) (t : EnemyType) (p : Position) :
    0 < (Enemy.create i t p).health ↔ t ≠ EnemyType.Dragon := by
  cases t <;> simp [Enemy.create]

/-- The constructor records the archetype it was given. -/
lemma create_type (i : Int) (t : EnemyType) (p : Position) :
    (Enemy.create i t p).type = t := by
  cases t <;> rfl

/-- C6 counterexample: the claim "all 5 spawned enemies are alive" fails —
with a draw sequence that selects archetype index 6 (the Dragon, which
spawns at health 0) the fresh session contains dead enemies. -/
theorem newGame_dragon_counterexample :
    ((Game.init (fun _ => 6)).newGame "Hero").enemies.length = 5 ∧
    (((Game.init (fun _ => 6)).newGame "Hero").enemies.all Enemy.isAlive) = false := by
  decide

/-- C6 (amended): immediately after `newGame(name)` the player is at the
fixed spawn offset with `dungeonLevel = 1`, the state is `Playing`, the log
holds exactly the one welcome message, and exactly 5 enemies were spawned,
each alive precisely when its archetype is not the Dragon (which spawns
dead). -/
theorem newGame_initial_state (g : Rng) (name : String) :
    (∃ pl, ((Game.init g).newGame name).player = some pl ∧
      pl.pos = (cppDiv MAP_WIDTH 4 + 1, cppDiv MAP_HEIGHT 4 + 1) ∧
      pl.dungeonLevel = 1 ∧ pl.name = name) ∧
    ((Game.init g).newGame name).state = GameState.Playing ∧
    ((Game.init g).newGame name).messages
      = ["Welcome to the dungeon, " ++ name ++ "!"] ∧
    ((Game.init g).newGame name).enemies.length = 5 ∧
    (∀ e ∈ ((Game.init g).newGame name).enemies,
      (0 < e.health ↔ e.type ≠ EnemyType.Dragon)) := by
  unfold Game.newGame Game.init
  rcases hg : DungeonGenerator.generate MAP_WIDTH MAP_HEIGHT (fun n => g n) with ⟨m2, g2⟩
  dsimp only
  rw [Game.addMessage]
  dsimp only
  refine ⟨?_, ?_, ?_, ?_, ?_⟩
  · rw [spawnItems_player, spawnEnemies_player]
    exact ⟨_, rfl, rfl, rfl, rfl⟩
  · rfl
  · rfl
  · rw [spawnItems_enemies, spawnEnemies_enemies_length]
    simp
  · intro e he
    rw [spawnItems_enemies] at he
    rcases spawnEnemies_mem _ _ e he with h | ⟨i, t, p, rfl⟩
    · simp at h
    · rw [create_health_pos_iff, create_type]


/-- Witness for C6: a concrete session whose five enemies are, with the
all-zero draw stream, all Goblins — alive since Goblin is not Dragon. -/
theorem newGame_initial_state_witness :
    ∃ pl, ((Game.init (fun _ => 0)).newGame "Hero").player = some pl ∧
      pl.pos = (cppDiv MAP_WIDTH 4 + 1, cppDiv MAP_HEIGHT 4 + 1) ∧
      pl.dungeonLevel = 1 ∧ pl.name = "Hero" :=
  (newGame_initial_state (fun _ => 0) "Hero").1

/-! ### Generator lemmas -/

lemma setTile_isValidPosition (m : Map) (x y t a b) :
    (m.setTile x y t).isValidPosition a b = m.isValidPosition a b := by
  unfold Map.setTile Map.isValidPosition
  split_ifs <;> rfl

lemma setTile_stairsDown (m : Map) (x y t) :
    (m.setTile x y t).stairsDown = m.stairsDown := by
  unfold Map.setTile
  split_ifs <;> rfl

lemma setTile_getTile (m : Map) (x y : Int) (t : TileType) (a b : Int) :
    (m.setTile x y t).getTile a b
      = if m.isValidPosition a b = true ∧ a = x ∧ b = y then canonicalTile t
        else m.getTile a b := by
  unfold Map.setTile Map.getTile
  by_cases h2 : a = x ∧ b = y
  · obtain ⟨rfl, rfl⟩ := h2
    by_cases h1 : m.isValidPosition a b = true
    · rw [if_pos h1]
      dsimp only
      rw [if_pos ⟨rfl, rfl⟩, if_pos ⟨h1, rfl, rfl⟩]
    · rw [if_neg h1, if_neg (fun h => h1 h.1)]
  · by_cases h1 : m.isValidPosition x y = true
    · rw [if_pos h1]
      dsimp only
      rw [if_neg h2, if_neg (fun h => h2 ⟨h.2.1, h.2.2⟩)]
    · rw [if_neg h1, if_neg (fun h => h2 ⟨h.2.1, h.2.2⟩)]

/-- The row-carving loop sets exactly the listed x's in row `y`. -/
lemma foldl_setTile_row_getTile (l : List Int) (y : Int) (m : Map) (a b : Int) :
    ((l.foldl (fun m x => m.setTile x y TileType.Floor) m).getTile a b)
      = if m.isValidPosition a b = true ∧ b = y ∧ a ∈ l
        then canonicalTile TileType.Floor
        else m.getTile a b := by
  induction l generalizing m with
  | nil => simp
  | cons x xs ih =>
    rw [List.foldl_cons, ih, setTile_isValidPosition, setTile_getTile]
    simp only [List.mem_cons]
    split_ifs <;> first | rfl | tauto

/-- Row folds do not change the grid dimensions. -/
lemma foldl_setTile_row_isValidPosition (l : List Int) (y : Int) (m : Map) (a b : Int) :
    ((l.foldl (fun m x => m.setTile x y TileType.Floor) m).isValidPosition a b)
      = m.isValidPosition a b := by
  induction l generalizing m with
  | nil => rfl
  | cons x xs ih => rw [List.foldl_cons, ih, setTile_isValidPosition]

/-- The whole carving loop sets exactly the rectangle `xl × ys`. -/
lemma foldl_carve_getTile (ys xl : List Int) (m : Map) (a b : Int) :
    ((ys.foldl (fun m y => xl.foldl (fun m x => m.setTile x y TileType.Floor) m) m).getTile a b)
      = if m.isValidPosition a b = true ∧ b ∈ ys ∧ a ∈ xl
        then canonicalTile TileType.Floor
        else m.getTile a b := by
  induction ys generalizing m with
  | nil => simp
  | cons y ys ih =>
    rw [List.foldl_cons, ih, foldl_setTile_row_isValidPosition,
      foldl_setTile_row_getTile]
    simp only [List.mem_cons]
    split_ifs <;> first | rfl | tauto

lemma foldl_carve_isValidPosition (ys xl : List Int) (m : Map) (a b : Int) :
    ((ys.foldl (fun m y => xl.foldl (fun m x => m.setTile x y TileType.Floor) m) m).isValidPosition a b)
      = m.isValidPosition a b := by
  induction ys generalizing m with
  | nil => rfl
  | cons y ys ih => rw [List.foldl_cons, ih, foldl_setTile_row_isValidPosition]

lemma foldl_carve_stairsDown (ys xl : List Int) (m : Map) :
    ((ys.foldl (fun m y => xl.foldl (fun m x => m.setTile x y TileType.Floor) m) m).stairsDown)
      = m.stairsDown := by
  have row : ∀ (l : List Int) (y : Int) (m : Map),
      ((l.foldl (fun m x => m.setTile x y TileType.Floor) m).stairsDown) = m.stairsDown := by
    intro l y
    induction l with
    | nil => intro m; rfl
    | cons x xs ih => intro m; rw [List.foldl_cons, ih, setTile_stairsDown]
  induction ys generalizing m with
  | nil => rfl
  | cons y ys ih => rw [List.foldl_cons, ih, row]

lemma mem_intRange (lo hi x : Int) : x ∈ intRange lo hi ↔ lo ≤ x ∧ x < hi := by
  unfold intRange
  simp only [List.mem_map, List.mem_range]
  constructor
  · rintro ⟨n, hn, rfl⟩
    omega
  · intro h
    exact ⟨(x - lo).toNat, by omega, by omega⟩

lemma cppDiv_nonneg_eq (a b : Int) (ha : 0 ≤ a) (hb : 0 ≤ b) :
    cppDiv a b = a / b := by
  unfold cppDiv
  exact Int.tdiv_eq_ediv ha hb

/-- Pointwise characterization of a generated map for dimensions ≥ 8×8:
the recorded stairs cell carries `StairsDown`, the rest of the central room
is `Floor`, and everything else is the default wall. -/
lemma generate_spec (w h : Int) (g : Rng) (hw : 8 ≤ w) (hh : 8 ≤ h) :
    ∃ sx sy : Int,
      (DungeonGenerator.generate w h g).1.stairsDown = (sx, sy) ∧
      cppDiv w 4 ≤ sx ∧ sx < cppDiv w 4 + cppDiv w 2 ∧
      cppDiv h 4 ≤ sy ∧ sy < cppDiv h 4 + cppDiv h 2 ∧
      (∀ a b : Int, ((DungeonGenerator.generate w h g).1.isValidPosition a b = true
          ↔ (0 ≤ a ∧ a < w ∧ 0 ≤ b ∧ b < h))) ∧
      ∀ a b : Int, (DungeonGenerator.generate w h g).1.getTile a b
        = if a = sx ∧ b = sy then canonicalTile TileType.StairsDown
          else if cppDiv w 4 ≤ a ∧ a < cppDiv w 4 + cppDiv w 2
                  ∧ cppDiv h 4 ≤ b ∧ b < cppDiv h 4 + cppDiv h 2
          then canonicalTile TileType.Floor
          else wallTile := by
  have hw4 : cppDiv w 4 = w / 4 := cppDiv_nonneg_eq _ _ (by omega) (by omega)
  have hw2 : cppDiv w 2 = w / 2 := cppDiv_nonneg_eq _ _ (by omega) (by omega)
  have hh4 : cppDiv h 4 = h / 4 := cppDiv_nonneg_eq _ _ (by omega) (by omega)
  have hh2 : cppDiv h 2 = h / 2 := cppDiv_nonneg_eq _ _ (by omega) (by omega)
  have hroomx : cppDiv w 4 + cppDiv w 2 ≤ w - 1 := by rw [hw4, hw2]; omega
  have hroomy : cppDiv h 4 + cppDiv h 2 ≤ h - 1 := by rw [hh4, hh2]; omega
  have hT1 : (cppDiv w 4 + cppDiv w 2 - 1 - cppDiv w 4 + 1).toNat = (cppDiv w 2).toNat := by
    omega
  have hT2 : (cppDiv h 4 + cppDiv h 2 - 1 - cppDiv h 4 + 1).toNat = (cppDiv h 2).toNat := by
    omega
  have hmod1 : (g 0) % (cppDiv w 4 + cppDiv w 2 - 1 - cppDiv w 4 + 1).toNat
      < (cppDiv w 2).toNat := by
    rw [hT1]
    exact Nat.mod_lt _ (by rw [hw2]; omega)
  have hmod2 : (g (0 + 1)) % (cppDiv h 4 + cppDiv h 2 - 1 - cppDiv h 4 + 1).toNat
      < (cppDiv h 2).toNat := by
    rw [hT2]
    exact Nat.mod_lt _ (by rw [hh2]; omega)
  have hvalid_of : ∀ a b : Int, cppDiv w 4 ≤ a → a < cppDiv w 4 + cppDiv w 2 →
      cppDiv h 4 ≤ b → b < cppDiv h 4 + cppDiv h 2 →
      (Map.create w h).isValidPosition a b = true := by
    intro a b h1 h2 h3 h4
    simp only [Map.create, Map.isValidPosition, Bool.and_eq_true, decide_eq_true_eq]
    omega
  unfold DungeonGenerator.generate uniformInt Rng.next
  dsimp only
  refine ⟨_, _, rfl, by omega, by omega, by omega, by omega, ?_, ?_⟩
  · intro a b
    show ((_ : Map).setTile _ _ TileType.StairsDown).isValidPosition a b = true ↔ _
    rw [setTile_isValidPosition, foldl_carve_isValidPosition]
    simp only [Map.create, Map.isValidPosition, Bool.and_eq_true, decide_eq_true_eq]
    omega
  intro a b
  rw [min_eq_left hroomx, min_eq_left hroomy]
  show ((_ : Map).setTile _ _ TileType.StairsDown).getTile a b = _
  rw [setTile_getTile, foldl_carve_isValidPosition, foldl_carve_getTile]
  by_cases hst : a = cppDiv w 4 + ((g 0 % (cppDiv w 4 + cppDiv w 2 - 1 - cppDiv w 4 + 1).toNat : Nat) : Int)
      ∧ b = cppDiv h 4 + ((g (0 + 1) % (cppDiv h 4 + cppDiv h 2 - 1 - cppDiv h 4 + 1).toNat : Nat) : Int)
  · obtain ⟨rfl, rfl⟩ := hst
    rw [if_pos ⟨hvalid_of _ _ (by omega) (by omega) (by omega) (by omega), rfl, rfl⟩,
      if_pos ⟨rfl, rfl⟩]
  · rw [if_neg (fun hc => hst ⟨hc.2.1, hc.2.2⟩), if_neg hst]
    by_cases hin : cppDiv w 4 ≤ a ∧ a < cppDiv w 4 + cppDiv w 2
        ∧ cppDiv h 4 ≤ b ∧ b < cppDiv h 4 + cppDiv h 2
    · rw [if_pos hin,
        if_pos ⟨hvalid_of _ _ hin.1 hin.2.1 hin.2.2.1 hin.2.2.2,
          (mem_intRange _ _ _).mpr ⟨hin.2.2.1, hin.2.2.2⟩,
          (mem_intRange _ _ _).mpr ⟨hin.1, hin.2.1⟩⟩]
    · rw [if_neg hin,
        if_neg (fun hc => hin
          ⟨((mem_intRange _ _ _).mp hc.2.2).1, ((mem_intRange _ _ _).mp hc.2.2).2,
           ((mem_intRange _ _ _).mp hc.2.1).1, ((mem_intRange _ _ _).mp hc.2.1).2⟩)]
      rfl

/-- Walkable paths concatenate. -/
lemma reaches_trans {m : Map} {p q r : Position}
    (h1 : m.Reaches p q) (h2 : m.Reaches q r) : m.Reaches p r := by
  induction h2 with
  | refl _ => exact h1
  | tail q' r' hq hadj hwr ih => exact Map.Reaches.tail _ _ _ ih hadj hwr

/-- Any two walkable cells of a map whose walkable region is a rectangle
are connected (walk along the row, then along the column). -/
lemma reaches_rect (m : Map) (x1 x2 y1 y2 : Int)
    (hw : ∀ p : Position, m.walkableAt p = true
        ↔ (x1 ≤ p.1 ∧ p.1 < x2 ∧ y1 ≤ p.2 ∧ p.2 < y2)) :
    ∀ p q : Position, m.walkableAt p = true → m.walkableAt q = true →
      m.Reaches p q := by
  have horiz : ∀ (n : Nat) (x x' y : Int), (x' - x).natAbs = n →
      m.walkableAt (x, y) = true → m.walkableAt (x', y) = true →
      m.Reaches (x, y) (x', y) := by
    intro n
    induction n with
    | zero =>
      intro x x' y hd hp hq
      have hxx : x' = x := by omega
      subst hxx
      exact Map.Reaches.refl _ hp
    | succ n ih =>
      intro x x' y hd hp hq
      have h1 := (hw (x, y)).mp hp
      have h2 := (hw (x', y)).mp hq
      dsimp only at h1 h2
      rcases lt_trichotomy x x' with hlt | heq | hgt
      · have hmid : m.walkableAt (x' - 1, y) = true := by
          rw [hw]
          dsimp only
          omega
        exact Map.Reaches.tail _ _ _ (ih x (x' - 1) y (by omega) hp hmid)
          (Or.inl ⟨by omega, rfl⟩) hq
      · exact absurd heq (by omega)
      · have hmid : m.walkableAt (x' + 1, y) = true := by
          rw [hw]
          dsimp only
          omega
        exact Map.Reaches.tail _ _ _ (ih x (x' + 1) y (by omega) hp hmid)
          (Or.inr (Or.inl ⟨by omega, rfl⟩)) hq
  have vert : ∀ (n : Nat) (x y y' : Int), (y' - y).natAbs = n →
      m.walkableAt (x, y) = true → m.walkableAt (x, y') = true →
      m.Reaches (x, y) (x, y') := by
    intro n
    induction n with
    | zero =>
      intro x y y' hd hp hq
      have hyy : y' = y := by omega
      subst hyy
      exact Map.Reaches.refl _ hp
    | succ n ih =>
      intro x y y' hd hp hq
      have h1 := (hw (x, y)).mp hp
      have h2 := (hw (x, y')).mp hq
      dsimp only at h1 h2
      rcases lt_trichotomy y y' with hlt | heq | hgt
      · have hmid : m.walkableAt (x, y' - 1) = true := by
          rw [hw]
          dsimp only
          omega
        exact Map.Reaches.tail _ _ _ (ih x y (y' - 1) (by omega) hp hmid)
          (Or.inr (Or.inr (Or.inl ⟨rfl, by omega⟩))) hq
      · exact absurd heq (by omega)
      · have hmid : m.walkableAt (x, y' + 1) = true := by
          rw [hw]
          dsimp only
          omega
        exact Map.Reaches.tail _ _ _ (ih x y (y' + 1) (by omega) hp hmid)
          (Or.inr (Or.inr (Or.inr ⟨rfl, by omega⟩))) hq
  intro p q hp hq
  have hpb := (hw p).mp hp
  have hqb := (hw q).mp hq
  have hmid : m.walkableAt (q.1, p.2) = true := by
    rw [hw]
    dsimp only
    omega
  exact reaches_trans
    (horiz (q.1 - p.1).natAbs p.1 q.1 p.2 rfl hp hmid)
    (vert (q.2 - p.2).natAbs q.1 p.2 q.2 rfl hmid hq)

/-- C4: for every width and height ≥ 8×8 and every draw stream, `generate`
returns a map with exactly one `StairsDown` cell; the recorded `stairsDown`
position points at it; the walkable region is non-empty, consists of Floor
cells plus that stairs cell, and is fully connected; and every cell outside
the carved central room — the whole outer border included — is a
non-walkable Wall. -/
theorem generate_valid_level (w h : Int) (g : Rng) (hw : 8 ≤ w) (hh : 8 ≤ h) :
    (∀ x y : Int,
      ((DungeonGenerator.generate w h g).1.getTile x y).type = TileType.StairsDown
        ↔ (x, y) = (DungeonGenerator.generate w h g).1.stairsDown) ∧
    (DungeonGenerator.generate w h g).1.walkableAt
        (DungeonGenerator.generate w h g).1.stairsDown = true ∧
    (∀ p : Position, (DungeonGenerator.generate w h g).1.walkableAt p = true →
      ((DungeonGenerator.generate w h g).1.getTile p.1 p.2).type = TileType.Floor
        ∨ p = (DungeonGenerator.generate w h g).1.stairsDown) ∧
    (∀ p q : Position, (DungeonGenerator.generate w h g).1.walkableAt p = true →
      (DungeonGenerator.generate w h g).1.walkableAt q = true →
      (DungeonGenerator.generate w h g).1.Reaches p q) ∧
    (∀ x y : Int, ¬(cppDiv w 4 ≤ x ∧ x < cppDiv w 4 + cppDiv w 2
          ∧ cppDiv h 4 ≤ y ∧ y < cppDiv h 4 + cppDiv h 2) →
      (DungeonGenerator.generate w h g).1.getTile x y = wallTile) := by
  obtain ⟨sx, sy, hsd, hx1, hx2, hy1, hy2, hvalid, htile⟩ := generate_spec w h g hw hh
  have hwallw : wallTile.walkable = false := rfl
  have hwalk : ∀ p : Position,
      (DungeonGenerator.generate w h g).1.walkableAt p = true
        ↔ (cppDiv w 4 ≤ p.1 ∧ p.1 < cppDiv w 4 + cppDiv w 2
            ∧ cppDiv h 4 ≤ p.2 ∧ p.2 < cppDiv h 4 + cppDiv h 2) := by
    intro p
    unfold Map.walkableAt Map.isWalkable
    have htl : ((DungeonGenerator.generate w h g).1.tiles p.1 p.2)
        = (DungeonGenerator.generate w h g).1.getTile p.1 p.2 := rfl
    constructor
    · intro hwk
      by_cases hv : (DungeonGenerator.generate w h g).1.isValidPosition p.1 p.2 = true
      · rw [if_pos hv, htl, htile] at hwk
        by_cases hst : p.1 = sx ∧ p.2 = sy
        · rw [if_pos hst] at hwk
          omega
        · rw [if_neg hst] at hwk
          by_cases hin : cppDiv w 4 ≤ p.1 ∧ p.1 < cppDiv w 4 + cppDiv w 2
              ∧ cppDiv h 4 ≤ p.2 ∧ p.2 < cppDiv h 4 + cppDiv h 2
          · exact hin
          · rw [if_neg hin] at hwk
            exact absurd hwk (by decide)
      · rw [if_neg hv] at hwk
        exact absurd hwk (by decide)
    · intro hin
      have hw4 : cppDiv w 4 = w / 4 := cppDiv_nonneg_eq _ _ (by omega) (by omega)
      have hw2 : cppDiv w 2 = w / 2 := cppDiv_nonneg_eq _ _ (by omega) (by omega)
      have hh4 : cppDiv h 4 = h / 4 := cppDiv_nonneg_eq _ _ (by omega) (by omega)
      have hh2 : cppDiv h 2 = h / 2 := cppDiv_nonneg_eq _ _ (by omega) (by omega)
      rw [if_pos ((hvalid p.1 p.2).mpr (by omega)), htl, htile]
      split_ifs with hst
      · rfl
      · rfl
  refine ⟨?_, ?_, ?_, ?_, ?_⟩
  · intro x y
    rw [htile, hsd]
    split_ifs with hst hin
    · obtain ⟨rfl, rfl⟩ := hst
      simp [canonicalTile]
    · constructor
      · intro hc
        exact absurd hc (by decide)
      · intro hc
        rw [Prod.ext_iff] at hc
        exact absurd ⟨hc.1, hc.2⟩ hst
    · constructor
      · intro hc
        exact absurd hc (by decide)
      · intro hc
        rw [Prod.ext_iff] at hc
        exact absurd ⟨hc.1, hc.2⟩ hst
  · rw [hsd, hwalk]
    dsimp only
    exact ⟨hx1, hx2, hy1, hy2⟩
  · intro p hp
    rw [htile]
    by_cases hst : p.1 = sx ∧ p.2 = sy
    · right
      rw [hsd, Prod.ext_iff]
      exact hst
    · left
      rw [if_neg hst, if_pos ((hwalk p).mp hp)]
      rfl
  · intro p q hp hq
    exact reaches_rect _ _ _ _ _ hwalk p q hp hq
  · intro x y hout
    rw [htile,
      if_neg (fun hc => hout (by obtain ⟨rfl, rfl⟩ := hc; exact ⟨hx1, hx2, hy1, hy2⟩)),
      if_neg hout]

/-- Witness for C4: the 8×8 map from the all-zero draw stream — its stairs
cell is walkable and uniquely typed, via the theorem at `w = h = 8`. -/
theorem generate_valid_level_witness :
    ((8 : Int) ≤ 8) ∧
    (DungeonGenerator.generate 8 8 (fun _ => 0)).1.walkableAt
        (DungeonGenerator.generate 8 8 (fun _ => 0)).1.stairsDown = true :=
  ⟨by decide,
   (generate_valid_level 8 8 (fun _ => 0) (by decide) (by decide)).2.1⟩

/-- C9 counterexample: the round-trip fails for a player name containing a
newline — `saveGame` writes the name raw, `getline` stops at the embedded
newline, and integer extraction then fails on the name's remainder, so
`loadGame` reproduces nothing (the C++ stream fails and leaves garbage
stats). -/
theorem saveLoad_newline_name_fails :
    loadGame (saveGame { Player.create 1 "He\nro" (5, 5) with gold := 7 }) 2
      = none := by
  decide

/-- C9 (amended): for every player whose name contains no newline character
(and arbitrary integer values of the eight numeric fields), saving and then
loading the produced content reproduces the name and all eight numeric
fields exactly. -/
theorem saveLoad_roundtrip (pl : Player) (nextId : Int)
    (h : '\n' ∉ pl.name.data) :
    ∃ pl' : Player, loadGame (saveGame pl) nextId = some pl' ∧
      pl'.name = pl.name ∧ pl'.health = pl.health ∧
      pl'.maxHealth = pl.maxHealth ∧ pl'.attackPower = pl.attackPower ∧
      pl'.defense = pl.defense ∧ pl'.level = pl.level ∧
      pl'.experience = pl.experience ∧ pl'.gold = pl.gold ∧
      pl'.dungeonLevel = pl.dungeonLevel := by
  unfold saveGame loadGame
  rw [getLine'_append _ _ h]
  dsimp only
  rw [readInt_intChars]
  dsimp only
  rw [readInt_cons_ws ' ' _ (by decide), readInt_intChars]
  dsimp only
  rw [readInt_cons_ws ' ' _ (by decide), readInt_intChars]
  dsimp only
  rw [readInt_cons_ws ' ' _ (by decide), readInt_intChars]
  dsimp only
  rw [readInt_cons_ws '\n' _ (by decide), readInt_intChars]
  dsimp only
  rw [readInt_cons_ws ' ' _ (by decide), readInt_intChars]
  dsimp only
  rw [readInt_cons_ws ' ' _ (by decide), readInt_intChars]
  dsimp only
  rw [readInt_cons_ws ' ' _ (by decide), readInt_intChars]
  dsimp only
  refine ⟨_, rfl, rfl, rfl, rfl, rfl, rfl, rfl, rfl, rfl, rfl⟩
  all_goals intro c hc
  all_goals simp at hc
  all_goals subst hc
  all_goals decide

/-- Witness for C9 (amended): a concrete round trip, with a negative gold
value exercising the sign path. -/
theorem saveLoad_roundtrip_witness :
    '\n' ∉ ({ Player.create 1 "Hero" (5, 5) with gold := -3 } : Player).name.data ∧
    ∃ pl' : Player,
      loadGame (saveGame { Player.create 1 "Hero" (5, 5) with gold := -3 }) 2
        = some pl' ∧
      pl'.name = ({ Player.create 1 "Hero" (5, 5) with gold := -3 } : Player).name ∧
      pl'.health = 100 ∧ pl'.maxHealth = 100 ∧ pl'.attackPower = 5 ∧
      pl'.defense = 2 ∧ pl'.level = 1 ∧ pl'.experience = 0 ∧
      pl'.gold = -3 ∧ pl'.dungeonLevel = 1 :=
  ⟨by decide,
   saveLoad_roundtrip { Player.create 1 "Hero" (5, 5) with gold := -3 } 2 (by decide)⟩

end RetroDungeon
